import Mathlib

/-!
Verification development for the visit-report voice-assistant repository.

The embedding follows `src/assistant_class.py` (the session orchestration
core: `record_until_silence`, `process_response_stream`, `handle_tool_calls`,
`interact`) and `src/tools.py`.  Python strings are Lean `String`s, the
insertion-ordered `dict` of pending tool calls is an association list,
machine side effects (Salesforce access, realtime-connection calls, audio
I/O, the optional tool callback) are recorded in an explicit effect trace,
and Python exceptions are explicit outcome constructors.

The Salesforce-backed tool module that `assistant_class.py` imports
(`find_account_by_name`, `list_contacts_for_account`, `upload_visit_report`
taking an `sf` client, bound in `TOOL_MAP` via `functools.partial`) is not
under `src/`; `src/tools.py` is the non-upload mock variant with different
signatures.  Where a claim depends on that missing module (the validation
flags and the upload gate) it is modelled from the spec, and the relevant
definitions say so in their doc comments.
-/

namespace VRA

/-- JSON values, modelling the Python objects handled by `json.loads` /
`json.dumps` in `assistant_class.py` (objects, arrays, strings, integers,
booleans, null; floats and string escapes are outside the fragment the
claims exercise). -/
inductive Json where
  | null
  | bool (b : Bool)
  | num (n : Int)
  | str (s : String)
  | arr (elems : List Json)
  | obj (fields : List (String × Json))

/-- Whitespace skipping for the JSON reader. -/
def skipWs : List Char → List Char
  | [] => []
  | c :: rest =>
    if c = ' ' ∨ c = '\t' ∨ c = '\n' ∨ c = '\r' then skipWs rest else c :: rest

/-- Read a JSON string body up to the closing quote (no escape sequences:
the argument fragments the claims exercise contain none). -/
def parseStringBody : List Char → Option (String × List Char)
  | [] => none
  | c :: rest =>
    if c = '"' then some ("", rest)
    else (parseStringBody rest).map (fun p => (String.mk (c :: p.1.data), p.2))

/-- Accumulate decimal digits. -/
def readDigits (acc : Nat) : List Char → Nat × List Char
  | [] => (acc, [])
  | c :: rest =>
    if c.isDigit then readDigits (acc * 10 + (c.toNat - 48)) rest else (acc, c :: rest)

/-- The opening-brace character. -/
def lbrace : Char := Char.ofNat 123

/-- The closing-brace character. -/
def rbrace : Char := Char.ofNat 125

mutual

/-- Fuel-indexed recursive-descent JSON value reader, modelling
`json.loads` on the fragment used by the tool-call payloads. -/
def parseVal : Nat → List Char → Option (Json × List Char)
  | 0, _ => none
  | fuel + 1, s =>
    match skipWs s with
    | [] => none
    | c :: rest =>
      if c = 'n' then
        match rest with
        | 'u' :: 'l' :: 'l' :: r => some (.null, r)
        | _ => none
      else if c = 't' then
        match rest with
        | 'r' :: 'u' :: 'e' :: r => some (.bool true, r)
        | _ => none
      else if c = 'f' then
        match rest with
        | 'a' :: 'l' :: 's' :: 'e' :: r => some (.bool false, r)
        | _ => none
      else if c = '"' then
        (parseStringBody rest).map (fun p => (.str p.1, p.2))
      else if c = '-' then
        match rest with
        | d :: r2 =>
          if d.isDigit then
            let p := readDigits (d.toNat - 48) r2
            some (.num (-(p.1 : Int)), p.2)
          else none
        | [] => none
      else if c.isDigit then
        let p := readDigits (c.toNat - 48) rest
        some (.num (p.1 : Int), p.2)
      else if c = '[' then
        match skipWs rest with
        | d :: r2 => if d = ']' then some (.arr [], r2) else parseArrElems fuel (d :: r2) []
        | [] => none
      else if c = lbrace then
        match skipWs rest with
        | d :: r2 => if d = rbrace then some (.obj [], r2) else parseObjFields fuel (d :: r2) []
        | [] => none
      else none

/-- Array-element loop of the JSON reader. -/
def parseArrElems : Nat → List Char → List Json → Option (Json × List Char)
  | 0, _, _ => none
  | fuel + 1, s, acc =>
    match parseVal fuel s with
    | none => none
    | some (v, r) =>
      match skipWs r with
      | c :: r2 =>
        if c = ',' then parseArrElems fuel r2 (acc ++ [v])
        else if c = ']' then some (.arr (acc ++ [v]), r2)
        else none
      | [] => none

/-- Object-field loop of the JSON reader. -/
def parseObjFields : Nat → List Char → List (String × Json) → Option (Json × List Char)
  | 0, _, _ => none
  | fuel + 1, s, acc =>
    match skipWs s with
    | c :: r =>
      if c = '"' then
        match parseStringBody r with
        | none => none
        | some (k, r2) =>
          match skipWs r2 with
          | c2 :: r3 =>
            if c2 = ':' then
              match parseVal fuel r3 with
              | none => none
              | some (v, r4) =>
                match skipWs r4 with
                | c3 :: r5 =>
                  if c3 = ',' then parseObjFields fuel r5 (acc ++ [(k, v)])
                  else if c3 = rbrace then some (.obj (acc ++ [(k, v)]), r5)
                  else none
                | [] => none
            else none
          | [] => none
      else none
    | [] => none

end

/-- `json.loads`: parse a whole string as one JSON value; `none` models a
raised `json.JSONDecodeError`. -/
def jsonParse (s : String) : Option Json :=
  match parseVal (2 * s.length + 4) s.data with
  | some (v, r) => if (skipWs r).isEmpty then some v else none
  | none => none

/-! ## Stream events, effects, validation state -/

/-- One event from the realtime connection, as consumed by
`process_response_stream` (src/assistant_class.py lines 140-158):
`response.audio.delta`, `response.audio_transcript.done`,
`response.function_call_arguments.delta`,
`response.function_call_arguments.done`, `response.done`. -/
inductive StreamEvent where
  | audioDelta (delta : String)
  | transcriptDone (transcript : String)
  | argsDelta (callId : String) (delta : String)
  | argsDone (callId : String) (name : String)
  | responseDone
deriving DecidableEq

/-- One Salesforce (CRM collaborator) access performed inside a tool
function.  Modelled from the spec, section 6: the CRM collaborator exposes
an account query, a contact query and a record creation. -/
inductive CrmOp where
  | findAccountQuery (accountName : String)
  | contactsQuery (accountName : String)
  | createVisitReport (args : Json)

/-- One observable side effect of the orchestration core: a tool function
being entered by the dispatch loop, a Salesforce access inside it, the
optional `tool_callback` firing, a `conversation.item.create` with a
`function_call_output`, a user-message `conversation.item.create`, a
`response.create` generation trigger, audio playback, audio capture. -/
inductive Effect where
  | toolInvoke (name : String) (args : Json)
  | sfOp (op : CrmOp)
  | callbackNotify (name : String) (args : Json) (payload : Json)
  | itemCreateOutput (callId : String) (output : Json)
  | itemCreateUser
  | responseCreate
  | playAudio (chunks : List String)
  | recordAudio

/-- `true` exactly on `response.create` effects. -/
def Effect.isRespCreate : Effect → Bool
  | .responseCreate => true
  | _ => false

/-- `true` exactly on Salesforce-access effects. -/
def Effect.isSfOp : Effect → Bool
  | .sfOp _ => true
  | _ => false

/-- `true` exactly on tool-function-entered effects. -/
def Effect.isToolInvoke : Effect → Bool
  | .toolInvoke _ _ => true
  | _ => false

/-- `true` exactly on `function_call_output` feedback effects. -/
def Effect.isItemOutput : Effect → Bool
  | .itemCreateOutput _ _ => true
  | _ => false

/-- Modelled from the spec, section 3 (`ValidationState`): the module-global
verification flags of the Salesforce-backed tool module that
`assistant_class.py` imports (the module is missing from `src/`; only its
caller and an unrelated mock variant `src/tools.py` are present).  Both
flags start `false`. -/
structure ValidationState where
  account_verified : Bool
  contact_verified : Bool
  verified_account_id : Option String
deriving DecidableEq

/-- Session-start validation state: both flags `false`. -/
def vs0 : ValidationState := ⟨false, false, none⟩

/-! ## Spec-modelled Salesforce-backed tool functions -/

/-- Outcome of the CRM account query (spec section 6). -/
inductive FindResult where
  | single_found (accountId accountName : String)
  | multiple_found (found : List (String × String))
  | not_found

/-- A CRM contact record (spec section 6). -/
structure Contact where
  name : String
  email : String
  id : String

/-- The external Salesforce behaviour, abstracted: what each query returns
and whether record creation succeeds.  (The CRM is an out-of-scope
collaborator in the spec, section 6.) -/
structure CrmBackend where
  findAccount : String → FindResult
  listContacts : String → List Contact
  createReport : Json → Except String Json

/-- ASCII whitespace, as recognized by Python's `str.strip()` on the
strings this program handles. -/
def isWsChar (c : Char) : Bool :=
  c = ' ' || c = '\t' || c = '\n' || c = '\r'

/-- Drop leading whitespace characters. -/
def dropWsLeft : List Char → List Char
  | [] => []
  | c :: rest => if isWsChar c then dropWsLeft rest else c :: rest

/-- Python `str.strip()`: drop whitespace from both ends. -/
def pyStrip (s : String) : String :=
  String.mk ((dropWsLeft (dropWsLeft s.data.reverse).reverse))

/-- Python `str.lower()` on the ASCII strings this program handles. -/
def pyLower (s : String) : String :=
  String.mk (s.data.map Char.toLower)

/-- `la` is a contiguous prefix of `lb`. -/
def charsPrefix : List Char → List Char → Bool
  | [], _ => true
  | _ :: _, [] => false
  | a :: as, b :: bs => a == b && charsPrefix as bs

/-- `needle` occurs contiguously inside `hay` (Python's `in` on strings). -/
def charsContains (needle : List Char) : List Char → Bool
  | [] => charsPrefix needle []
  | hay@(_ :: rest) => charsPrefix needle hay || charsContains needle rest

/-- Python `needle in hay` for strings. -/
def strContains (hay needle : String) : Bool :=
  charsContains needle.data hay.data

/-- JSON object field lookup returning a string value. -/
def Json.getStr (j : Json) (k : String) : Option String :=
  match j with
  | .obj fields =>
    match fields.find? (fun kv => kv.1 == k) with
    | some (_, .str s) => some s
    | _ => none
  | _ => none

/-- Tool result / error payload carrying one message under `"error"`. -/
def errJson (e : String) : Json := .obj [("error", .str e)]

/-- The gate-violation tool output (spec sections 4.3 and 7: `GateViolation`
is not an exception; it is a synthesized tool-output error). -/
def gateViolationJson : Json := errJson "must validate account/contact first"

/-- Modelled from the spec, section 4.3 step 3 and section 6: the
Salesforce-backed `find_account_by_name` (missing from `src/`).  On an
exact single match it sets `account_verified` and records the account id;
on ambiguous or no-match it clears both. -/
def find_account_by_name_sf (crm : CrmBackend) (accountName : String)
    (vs : ValidationState) : ValidationState × List CrmOp × Except String Json :=
  match crm.findAccount accountName with
  | .single_found aid aname =>
    ({vs with account_verified := true, verified_account_id := some aid},
     [.findAccountQuery accountName],
     .ok (.obj [("status", .str "single_found"), ("account_name", .str aname),
                ("account_id", .str aid)]))
  | .multiple_found ms =>
    ({vs with account_verified := false, verified_account_id := none},
     [.findAccountQuery accountName],
     .ok (.obj [("status", .str "multiple_found"),
                ("matched_accounts", .arr (ms.map (fun m => Json.str m.1)))]))
  | .not_found =>
    ({vs with account_verified := false, verified_account_id := none},
     [.findAccountQuery accountName],
     .ok (.obj [("status", .str "not_found")]))

/-- Modelled from the spec, section 4.3 step 4 and section 6: the
Salesforce-backed `list_contacts_for_account` (missing from `src/`).  Sets
`contact_verified` iff some returned contact name contains the requested
contact, case-insensitively. -/
def list_contacts_for_account_sf (crm : CrmBackend) (accountName contactName : String)
    (vs : ValidationState) : ValidationState × List CrmOp × Except String Json :=
  let cs := crm.listContacts accountName
  let matched := cs.any (fun c => strContains (pyLower c.name) (pyLower contactName))
  ({vs with contact_verified := matched},
   [.contactsQuery accountName],
   .ok (.obj [("contacts", .arr (cs.map (fun c => Json.str c.name)))]))

/-- Modelled from the spec, section 4.3 step 1 and section 6: the
Salesforce-backed `upload_visit_report` (missing from `src/`).  If the two
verification flags are not both set, it short-circuits: no CRM access, and
the synthesized `GateViolation` output `"must validate account/contact
first"` is returned as the tool's (ordinary) result; otherwise it performs
the CRM record creation exactly once. -/
def upload_visit_report_sf (crm : CrmBackend) (args : Json)
    (vs : ValidationState) : ValidationState × List CrmOp × Except String Json :=
  if vs.account_verified && vs.contact_verified then
    match crm.createReport args with
    | .ok rec => (vs, [.createVisitReport args], .ok rec)
    | .error e => (vs, [.createVisitReport args], .error e)
  else
    (vs, [], .ok gateViolationJson)

/-! ## Tool dispatch (`handle_tool_calls`, src/assistant_class.py 102-134) -/

/-- A finalized tool call, as built at `response.done`
(src/assistant_class.py 167-173): resolved name, `call_id`, concatenated
argument string. -/
structure ToolCall where
  name : String
  call_id : String
  arguments : String

/-- The keys of `TOOL_MAP` (src/assistant_class.py 43-47). -/
def TOOL_MAP_keys : List String :=
  ["find_account_by_name", "list_contacts_for_account", "upload_visit_report"]

/-- The environment `handle_tool_calls` runs in: the behaviour of the three
`TOOL_MAP` tool functions (state-threading because the spec-modelled tool
module keeps the validation flags as module globals), and whether
`self.tool_callback` is set. -/
structure ToolEnv where
  toolImpl : String → Json → ValidationState → ValidationState × List CrmOp × Except String Json
  hasCallback : Bool

/-- Modelled from the spec: the `TOOL_MAP` dispatch target for each of the
three tool names, backed by the spec-modelled Salesforce tool functions. -/
def specToolImpl (crm : CrmBackend) :
    String → Json → ValidationState → ValidationState × List CrmOp × Except String Json :=
  fun name args vs =>
    if name = "find_account_by_name" then
      match args.getStr "account_name" with
      | some an => find_account_by_name_sf crm an vs
      | none => (vs, [], .error "TypeError: missing account_name")
    else if name = "list_contacts_for_account" then
      match args.getStr "account_name", args.getStr "contact_name" with
      | some an, some cn => list_contacts_for_account_sf crm an cn vs
      | _, _ => (vs, [], .error "TypeError: missing arguments")
    else if name = "upload_visit_report" then
      upload_visit_report_sf crm args vs
    else
      (vs, [], .error ("unknown tool " ++ name))

/-- Result of the dispatch loop: final validation state, effect trace, and
whether an exception escaped the loop (aborting the batch). -/
structure DispatchRes where
  vs : ValidationState
  trace : List Effect
  crashed : Bool

/-- One iteration of the `for call in tool_calls` loop of
`handle_tool_calls` (src/assistant_class.py 103-134).  `json.loads`
failure takes the per-call `except` path, which reads the unbound local
`arguments` when `self.tool_callback` is set — that `UnboundLocalError`
escapes (crash).  An unknown name raises `KeyError` on `TOOL_MAP`, caught
by the same `except`.  A tool-function exception is caught: it is only
printed and reported to the callback; no `function_call_output` is created
and no generation is triggered for that call.  On success the result is
fed back via `conversation.item.create` and `response.create` is awaited
(line 127, inside the per-call loop). -/
def handleOneCall (env : ToolEnv) (vs : ValidationState) (call : ToolCall) : DispatchRes :=
  match jsonParse call.arguments with
  | none => ⟨vs, [], env.hasCallback⟩
  | some args =>
    if call.name ∈ TOOL_MAP_keys then
      let r := env.toolImpl call.name args vs
      match r.2.2 with
      | .ok res =>
        ⟨r.1,
         .toolInvoke call.name args :: r.2.1.map Effect.sfOp
           ++ (if env.hasCallback then [.callbackNotify call.name args res] else [])
           ++ [.itemCreateOutput call.call_id res, .responseCreate],
         false⟩
      | .error e =>
        ⟨r.1,
         .toolInvoke call.name args :: r.2.1.map Effect.sfOp
           ++ (if env.hasCallback then [.callbackNotify call.name args (errJson e)] else []),
         false⟩
    else
      ⟨vs,
       (if env.hasCallback
        then [.callbackNotify call.name args (errJson ("KeyError: " ++ call.name))] else []),
       false⟩

/-- `handle_tool_calls` (src/assistant_class.py 102-134): process the batch
in order; an escaping exception (crash) aborts the rest of the batch. -/
def handle_tool_calls (env : ToolEnv) : ValidationState → List ToolCall → DispatchRes
  | vs, [] => ⟨vs, [], false⟩
  | vs, c :: cs =>
    let r := handleOneCall env vs c
    if r.crashed then ⟨r.vs, r.trace, true⟩
    else
      let r2 := handle_tool_calls env r.vs cs
      ⟨r2.vs, r.trace ++ r2.trace, r2.crashed⟩

/-! ## Stream aggregation (`process_response_stream`, src/assistant_class.py 136-187) -/

/-- One `pending_tool_calls` accumulator entry: the fragment characters
accumulated so far (`list.extend` over the delta string appends its
characters) and the name, `None` until a `function_call_arguments.done`
event with this `call_id` arrives. -/
structure PendingData where
  arguments : List Char
  name : Option String
deriving DecidableEq

/-- The `pending_tool_calls` dict: an insertion-ordered association list
keyed by `call_id`. -/
abbrev Pending := List (String × PendingData)

/-- `response.function_call_arguments.delta` handling
(src/assistant_class.py 147-151): create the accumulator on first sight,
then extend its fragment list in place. -/
def pendingExtend : Pending → String → String → Pending
  | [], cid, d => [(cid, ⟨d.data, none⟩)]
  | kv :: rest, cid, d =>
    if kv.1 = cid then (kv.1, ⟨kv.2.arguments ++ d.data, kv.2.name⟩) :: rest
    else kv :: pendingExtend rest cid d

/-- `response.function_call_arguments.done` handling
(src/assistant_class.py 153-156): record the name only if the `call_id`
already has an accumulator; otherwise the event is ignored. -/
def pendingSetName : Pending → String → String → Pending
  | [], _, _ => []
  | kv :: rest, cid, n =>
    if kv.1 = cid then (kv.1, ⟨kv.2.arguments, some n⟩) :: rest
    else kv :: pendingSetName rest cid n

/-- The local state of one `process_response_stream` run: `audio_chunks`,
`pending_tool_calls`, and `final_text` (`none` models the local variable
never having been assigned). -/
structure AggState where
  audio_chunks : List String
  pending : Pending
  final_text : Option String
deriving DecidableEq

/-- Aggregator state at the start of a `process_response_stream` run. -/
def initAgg : AggState := ⟨[], [], none⟩

/-- The pure state transition for one non-`response.done` event
(src/assistant_class.py 141-156).  On `response.done` (handled separately
by `processEvents`) it is the identity. -/
def stepA (st : AggState) : StreamEvent → AggState
  | .audioDelta d => {st with audio_chunks := st.audio_chunks ++ [d]}
  | .transcriptDone t => {st with final_text := some (pyStrip t)}
  | .argsDelta cid d => {st with pending := pendingExtend st.pending cid d}
  | .argsDone cid n => {st with pending := pendingSetName st.pending cid n}
  | .responseDone => st

/-- Finalization at `response.done` (src/assistant_class.py 160-173): every
accumulator whose name passes the truthiness check `if call_data["name"]:`
(line 162) becomes a `ToolCall` with the fragments concatenated, in dict
(= insertion) order; a call whose name never resolved (`None`) — or
resolved to the falsy empty string — is skipped. -/
def toolCallsOf (p : Pending) : List ToolCall :=
  p.filterMap (fun kv =>
    match kv.2.name with
    | some n => if n = "" then none else some ⟨n, kv.1, String.mk kv.2.arguments⟩
    | none => none)

/-- The exceptions the orchestration core can raise: the invalid-mode
`ValueError` of `interact`, the `UnboundLocalError` of reading `final_text`
before assignment, and an exception escaping `handle_tool_calls`. -/
inductive ExcKind where
  | valueError
  | unboundLocal
  | propagated
deriving DecidableEq

/-- The Python value returned by `process_response_stream` (`.ret none`
models returning `None` when the event iterator is exhausted without a
`response.done` resolution), or the exception it raises. -/
inductive ProcOut where
  | ret (v : Option String)
  | exc (k : ExcKind)
deriving DecidableEq

/-- Result of a `process_response_stream` run: validation state after any
dispatched batch, effect trace, and outcome. -/
structure ProcRes where
  vs : ValidationState
  trace : List Effect
  out : ProcOut

/-- `process_response_stream` (src/assistant_class.py 136-187) over an
explicit event list.  At `response.done`: if `pending_tool_calls` is
non-empty and finalization yields at least one named call, the batch is
dispatched and the sentinel string `"tool_called"` is returned; if it
yields none, the branch falls through and the loop keeps consuming events.
If `pending_tool_calls` is empty, `final_text` is read — raising
`UnboundLocalError` when no transcript-done event ever assigned it —
otherwise the accumulated audio is played (when non-empty) and the trimmed
transcript is returned. -/
def processEvents (env : ToolEnv) : List StreamEvent → AggState → ValidationState → ProcRes
  | [], _, vs => ⟨vs, [], .ret none⟩
  | .responseDone :: rest, st, vs =>
    if st.pending.isEmpty then
      match st.final_text with
      | none => ⟨vs, [], .exc .unboundLocal⟩
      | some t =>
        ⟨vs, (if st.audio_chunks.isEmpty then [] else [.playAudio st.audio_chunks]),
         .ret (some t)⟩
    else
      let tcs := toolCallsOf st.pending
      if tcs.isEmpty then processEvents env rest st vs
      else
        let r := handle_tool_calls env vs tcs
        ⟨r.vs, r.trace, if r.crashed then .exc .propagated else .ret (some "tool_called")⟩
  | e :: rest, st, vs => processEvents env rest (stepA st e) vs

/-! ## Audio endpointer (`record_until_silence`, src/assistant_class.py 50-86) -/

/-- The capture loop of `record_until_silence`: read a frame, append it,
classify it with the VAD; a speech frame resets the trailing-silence
counter to zero, a silence frame increments it, and capture stops once the
counter reaches the limit.  The frame source is an explicit list; `none`
models the loop still waiting on the (blocking) stream when the list is
exhausted. -/
def recordLoop {α : Type} (isSpeech : α → Bool) (limit : Nat) :
    List α → Nat → Option (List α)
  | [], _ => none
  | f :: rest, counter =>
    if isSpeech f then
      (recordLoop isSpeech limit rest 0).map (fun tl => f :: tl)
    else if counter + 1 ≥ limit then some [f]
    else (recordLoop isSpeech limit rest (counter + 1)).map (fun tl => f :: tl)

/-- `silence_limit = int(self.silence_timeout * 1000 / self.frame_duration)`
with `silence_timeout = 1.5` s and `frame_duration = 30` ms
(src/assistant_class.py 41-42, 52): 1500 ms / 30 ms. -/
def silenceLimit : Nat := 1500 / 30

/-- `record_until_silence` (src/assistant_class.py 50-86), with the frame
source and the VAD classification abstracted: capture frames until
`silenceLimit` consecutive silence frames have been appended. -/
def record_until_silence {α : Type} (isSpeech : α → Bool) (frames : List α) :
    Option (List α) :=
  recordLoop isSpeech silenceLimit frames 0

/-! ## Session orchestration (`interact`, src/assistant_class.py 485-502) -/

/-- The value `interact` returns, or the exception it raises
(`.exc .valueError` is the invalid-mode `ValueError` of line 491). -/
inductive InteractOut where
  | ret (v : Option String)
  | exc (k : ExcKind)
deriving DecidableEq

/-- Lift a stream outcome to an `interact` outcome. -/
def ofProc : ProcOut → InteractOut
  | .ret v => .ret v
  | .exc k => .exc k

/-- Result of an `interact` call. -/
structure InterRes where
  vs : ValidationState
  trace : List Effect
  out : InteractOut

/-- The `while True` loop of `interact` (src/assistant_class.py 498-502)
over the successive turn event streams the connection yields: drain one
turn; if the result equals the string `"tool_called"`, trigger generation
again and loop, otherwise return the result. -/
def interactLoop (env : ToolEnv) : List (List StreamEvent) → ValidationState → ProcRes
  | [], vs => ⟨vs, [], .ret none⟩
  | t :: rest, vs =>
    let r := processEvents env t initAgg vs
    match r.out with
    | .ret v =>
      if v = some "tool_called" then
        let r2 := interactLoop env rest r.vs
        ⟨r2.vs, r.trace ++ .responseCreate :: r2.trace, r2.out⟩
      else ⟨r.vs, r.trace, .ret v⟩
    | .exc k => ⟨r.vs, r.trace, .exc k⟩

/-- `interact` (src/assistant_class.py 485-502): `"voice"` captures audio
first, `"text"` wraps the text; any other mode raises `ValueError` before
anything is sent to the connection.  Then the user message is appended,
generation is triggered, and the response loop runs. -/
def interact (env : ToolEnv) (mode : String) (turns : List (List StreamEvent))
    (vs : ValidationState) : InterRes :=
  if mode = "voice" then
    let r := interactLoop env turns vs
    ⟨r.vs, .recordAudio :: .itemCreateUser :: .responseCreate :: r.trace, ofProc r.out⟩
  else if mode = "text" then
    let r := interactLoop env turns vs
    ⟨r.vs, .itemCreateUser :: .responseCreate :: r.trace, ofProc r.out⟩
  else ⟨vs, [], .exc .valueError⟩

/-! ## Concrete fixtures used by the claim theorems -/

/-- A tool environment whose three tool functions trivially succeed with a
`null` result, no CRM access and no state change; no `tool_callback`. -/
def envId : ToolEnv := ⟨fun _ _ vs => (vs, [], .ok Json.null), false⟩

/-- A CRM backend on which the account query finds exactly one account,
the contact query returns one contact and record creation succeeds. -/
def crm0 : CrmBackend :=
  ⟨fun _ => .single_found "A001" "igus GmbH",
   fun _ => [⟨"Max Mustermann", "max@igus.de", "C001"⟩],
   fun _ => .ok (.obj [("id", .str "R001")])⟩

/-- The spec-modelled tool functions over `crm0`, no callback. -/
def env0 : ToolEnv := ⟨specToolImpl crm0, false⟩

/-- A CRM backend whose record creation raises. -/
def crmErr : CrmBackend := ⟨fun _ => .not_found, fun _ => [], fun _ => .error "boom"⟩

/-- The spec-modelled tool functions over `crmErr`, with a callback set. -/
def envE : ToolEnv := ⟨specToolImpl crmErr, true⟩

/-- A finalized `upload_visit_report` call with empty JSON arguments. -/
def upCall : ToolCall := ⟨"upload_visit_report", "u1", "\x7b\x7d"⟩

/-- A turn delivering one `find_account_by_name` call: two argument events
and the turn-complete event. -/
def toolTurn : List StreamEvent :=
  [.argsDelta "c1" "\x7b\"account_name\":\"igus\"\x7d",
   .argsDone "c1" "find_account_by_name", .responseDone]

/-- A non-tool turn: a completed transcript, then turn-complete. -/
def finalTurn : List StreamEvent := [.transcriptDone "All done.", .responseDone]

/-- The C5 turn: fragments of call `c1` interleaved with a fragment of the
concurrent call `c2`, both names resolved, then turn-complete. -/
def c5turn : List StreamEvent :=
  [.argsDelta "c1" "\x7b\"a\":", .argsDelta "c2" "4", .argsDelta "c1" "1\x7d",
   .argsDone "c1" "find_account_by_name",
   .argsDone "c2" "list_contacts_for_account", .responseDone]

/-- The fragment characters accumulated for `cid` in the dict. -/
def argsOf : Pending → String → List Char
  | [], _ => []
  | kv :: rest, cid => if kv.1 = cid then kv.2.arguments else argsOf rest cid

/-- The concatenation, in arrival order, of the characters of all
`function_call_arguments.delta` events carrying `call_id = cid`. -/
def deltasFor (cid : String) : List StreamEvent → List Char
  | [] => []
  | .argsDelta c d :: rest => (if c = cid then d.data else []) ++ deltasFor cid rest
  | _ :: rest => deltasFor cid rest

/-- Events that can neither create an accumulator nor assign `final_text`:
audio deltas, and `function_call_arguments.done` events (which are ignored
when their `call_id` has no accumulator). -/
def preservesEmpty : StreamEvent → Bool
  | .audioDelta _ => true
  | .argsDone _ _ => true
  | _ => false

/-! ## General lemmas -/

/-- A non-`response.done` event only advances the aggregator state. -/
theorem processEvents_cons_nd (env : ToolEnv) (e : StreamEvent)
    (rest : List StreamEvent) (st : AggState) (vs : ValidationState)
    (h : e ≠ StreamEvent.responseDone) :
    processEvents env (e :: rest) st vs = processEvents env rest (stepA st e) vs := by
  cases e with
  | responseDone => exact absurd rfl h
  | audioDelta d => rfl
  | transcriptDone t => rfl
  | argsDelta cid d => rfl
  | argsDone cid n => rfl

/-- Processing a `response.done`-free prefix folds the pure step over it. -/
theorem processEvents_append_nd (env : ToolEnv) (es rest : List StreamEvent)
    (st : AggState) (vs : ValidationState)
    (h : ∀ e ∈ es, e ≠ StreamEvent.responseDone) :
    processEvents env (es ++ rest) st vs
      = processEvents env rest (es.foldl stepA st) vs := by
  induction es generalizing st with
  | nil => rfl
  | cons e es ih =>
    rw [List.cons_append, processEvents_cons_nd env e _ st vs (h e (List.mem_cons_self e es))]
    exact ih (stepA st e) (fun x hx => h x (List.mem_cons_of_mem e hx))

/-- Without a callback the per-call `except` handler cannot itself raise. -/
theorem handleOneCall_no_crash (env : ToolEnv) (vs : ValidationState) (c : ToolCall)
    (h : env.hasCallback = false) : (handleOneCall env vs c).crashed = false := by
  unfold handleOneCall
  cases hp : jsonParse c.arguments with
  | none => simpa using h
  | some args =>
    by_cases hk : c.name ∈ TOOL_MAP_keys
    · simp only [hk, if_true]
      cases henv : (env.toolImpl c.name args vs).2.2 <;> simp
    · simp [hk]

/-- Without a callback the dispatch loop never crashes. -/
theorem handle_tool_calls_no_crash (env : ToolEnv) (h : env.hasCallback = false) :
    ∀ (vs : ValidationState) (cs : List ToolCall),
      (handle_tool_calls env vs cs).crashed = false := by
  intro vs cs
  induction cs generalizing vs with
  | nil => rfl
  | cons c cs ih =>
    show (handle_tool_calls env vs (c :: cs)).crashed = false
    unfold handle_tool_calls
    simp [handleOneCall_no_crash env vs c h, ih]

/-- `response.done` with an empty `pending_tool_calls` and an assigned
`final_text` returns the transcript (playing any accumulated audio). -/
theorem processEvents_done_final (env : ToolEnv) (rest : List StreamEvent)
    (st : AggState) (vs : ValidationState) (t : String)
    (hp : st.pending = []) (hf : st.final_text = some t) :
    processEvents env (StreamEvent.responseDone :: rest) st vs
      = ⟨vs, (if st.audio_chunks.isEmpty then [] else [.playAudio st.audio_chunks]),
         .ret (some t)⟩ := by
  unfold processEvents
  simp [hp, hf]

/-- `response.done` with at least one name-resolved accumulator dispatches
the finalized batch. -/
theorem processEvents_done_tool (env : ToolEnv) (rest : List StreamEvent)
    (st : AggState) (vs : ValidationState)
    (h : (toolCallsOf st.pending).isEmpty = false) :
    processEvents env (StreamEvent.responseDone :: rest) st vs
      = (let r := handle_tool_calls env vs (toolCallsOf st.pending)
         ⟨r.vs, r.trace, if r.crashed then .exc .propagated else .ret (some "tool_called")⟩) := by
  have hpne : st.pending.isEmpty = false := by
    cases hps : st.pending with
    | nil => rw [hps] at h; simp [toolCallsOf] at h
    | cons a l => simp [hps]
  unfold processEvents
  simp [hpne, h]

/-- Recording a name for an absent `call_id` leaves the dict unchanged. -/
theorem pendingSetName_absent (p : Pending) (cid n : String)
    (h : ∀ kv ∈ p, kv.1 ≠ cid) : pendingSetName p cid n = p := by
  induction p with
  | nil => rfl
  | cons kv rest ih =>
    unfold pendingSetName
    rw [if_neg (h kv (List.mem_cons_self kv rest))]
    rw [ih (fun x hx => h x (List.mem_cons_of_mem kv hx))]

/-- Extending the accumulator for `c` appends to `c`'s fragments and to
nobody else's. -/
theorem argsOf_extend (p : Pending) (c d cid : String) :
    argsOf (pendingExtend p c d) cid
      = argsOf p cid ++ (if c = cid then d.data else []) := by
  induction p with
  | nil =>
    by_cases h2 : c = cid <;> simp [pendingExtend, argsOf, h2]
  | cons kv rest ih =>
    by_cases h1 : kv.1 = c
    · by_cases h2 : kv.1 = cid
      · have hc : c = cid := h1 ▸ h2
        simp [pendingExtend, argsOf, h1, h2, hc]
      · have hc : ¬ c = cid := fun hcc => h2 (hcc ▸ h1)
        simp [pendingExtend, argsOf, h1, h2, hc]
    · by_cases h2 : kv.1 = cid
      · have hc : ¬ c = cid := fun hcc => h1 (hcc ▸ h2)
        have hc2 : ¬ cid = c := fun hcc => hc hcc.symm
        simp [pendingExtend, argsOf, h1, h2, hc, hc2]
      · simp [pendingExtend, argsOf, h1, h2, ih]

/-- Resolving a name never touches fragment lists. -/
theorem argsOf_setName (p : Pending) (c n cid : String) :
    argsOf (pendingSetName p c n) cid = argsOf p cid := by
  induction p with
  | nil => rfl
  | cons kv rest ih =>
    by_cases h1 : kv.1 = c
    · by_cases h2 : kv.1 = cid <;> simp [pendingSetName, argsOf, h1, h2]
    · by_cases h2 : kv.1 = cid
      · have hc2 : ¬ cid = c := fun hcc => h1 (h2.symm ▸ hcc.symm ▸ rfl)
        simp [pendingSetName, argsOf, h1, h2, hc2]
      · simp [pendingSetName, argsOf, h1, h2, ih]

/-- Order preservation: after consuming any event sequence, the fragments
held for `cid` are the previously held ones followed by exactly the deltas
addressed to `cid`, in arrival order — fragments of other concurrent
`call_id`s never reorder them. -/
theorem argsOf_fold (es : List StreamEvent) (st : AggState) (cid : String) :
    argsOf ((es.foldl stepA st).pending) cid
      = argsOf st.pending cid ++ deltasFor cid es := by
  induction es generalizing st with
  | nil => simp [deltasFor]
  | cons e es ih =>
    rw [List.foldl_cons, ih]
    cases e <;> simp [stepA, deltasFor, argsOf_extend, argsOf_setName, List.append_assoc]

/-- Folding events that neither create an accumulator nor assign
`final_text` preserves `pending = ∅` and an unassigned
`final_text`. -/
theorem quiet_fold (es : List StreamEvent) (st : AggState)
    (hstp : st.pending = []) (hstf : st.final_text = none)
    (h : ∀ e ∈ es, preservesEmpty e = true) :
    (es.foldl stepA st).pending = [] ∧ (es.foldl stepA st).final_text = none := by
  induction es generalizing st with
  | nil => exact ⟨hstp, hstf⟩
  | cons e es ih =>
    have he := h e (List.mem_cons_self e es)
    have hrest : ∀ x ∈ es, preservesEmpty x = true :=
      fun x hx => h x (List.mem_cons_of_mem e hx)
    rw [List.foldl_cons]
    cases e with
    | audioDelta d => exact ih _ hstp hstf hrest
    | argsDone cid n =>
      refine ih _ ?_ hstf hrest
      simp [stepA, hstp, pendingSetName]
    | transcriptDone t => simp [preservesEmpty] at he
    | argsDelta cid d => simp [preservesEmpty] at he
    | responseDone => simp [preservesEmpty] at he

/-! ## Claim theorems -/

/-- C2 (amended): for every turn — a `response.done`-free event prefix
followed by the turn-complete event — the aggregator returns exactly one
of the tool-batch sentinel or the final utterance, tool dispatch taking
priority, PROVIDED that at turn-complete either at least one accumulator
has a truthy (resolved, non-empty) name (then the sentinel `"tool_called"`
is returned, regardless of any transcript), or there are no accumulators
at all and a transcript-done event assigned the final text (then that
text is returned).  Outside these conditions the code returns neither: an
accumulator whose name never resolved, or resolved to the falsy empty
string, makes the handler fall through (see the counterexample and C9). -/
theorem C2_exactly_one (env : ToolEnv) (es : List StreamEvent) (vs : ValidationState)
    (hcb : env.hasCallback = false)
    (hnd : ∀ e ∈ es, e ≠ StreamEvent.responseDone) :
    ((toolCallsOf (es.foldl stepA initAgg).pending).isEmpty = false →
      (processEvents env (es ++ [StreamEvent.responseDone]) initAgg vs).out
        = ProcOut.ret (some "tool_called"))
    ∧ ((es.foldl stepA initAgg).pending = [] →
        ∀ t, (es.foldl stepA initAgg).final_text = some t →
          (processEvents env (es ++ [StreamEvent.responseDone]) initAgg vs).out
            = ProcOut.ret (some t)) := by
  constructor
  · intro h
    rw [processEvents_append_nd env es _ initAgg vs hnd,
        processEvents_done_tool env [] _ vs h]
    simp [handle_tool_calls_no_crash env hcb]
  · intro hp t hf
    rw [processEvents_append_nd env es _ initAgg vs hnd,
        processEvents_done_final env [] _ vs t hp hf]

/-- C2 witness: a turn with one resolved tool call returns the sentinel. -/
theorem C2_exactly_one_w :
    (processEvents envId
        ([StreamEvent.argsDelta "c1" "\x7b\x7d",
          StreamEvent.argsDone "c1" "find_account_by_name"]
          ++ [StreamEvent.responseDone]) initAgg vs0).out
      = ProcOut.ret (some "tool_called") :=
  (C2_exactly_one envId
    [StreamEvent.argsDelta "c1" "\x7b\x7d",
     StreamEvent.argsDone "c1" "find_account_by_name"] vs0 rfl
    (by intro e he; fin_cases he <;> simp)).1 rfl

/-- C2 counterexample: a turn whose only accumulator never gets a name —
or gets the falsy empty string as its name (the truthiness check at
line 162) — makes `response.done` fall through; the stream then ends and
`process_response_stream` returns Python `None` — neither a tool batch nor
a final utterance. -/
theorem C2_cex :
    processEvents envId [StreamEvent.argsDelta "c1" "x", StreamEvent.responseDone]
        initAgg vs0
      = ⟨vs0, [], ProcOut.ret none⟩
    ∧ processEvents envId [StreamEvent.argsDelta "c1" "x", StreamEvent.argsDone "c1" "",
          StreamEvent.responseDone] initAgg vs0
      = ⟨vs0, [], ProcOut.ret none⟩
    ∧ ∀ t : String, (ProcOut.ret none : ProcOut) ≠ ProcOut.ret (some t) :=
  ⟨rfl, rfl, by intro t h; simp at h⟩

/-- C5: fragments for one `call_id` are concatenated in arrival order and
are never reordered by interleaved fragments of a concurrent `call_id`
(first conjunct, for every event sequence and every state); concretely,
the two fragments of call `c1` interleaved with one of `c2` finalize to
the parsed structured value with field `a = 1`, which is what the dispatch
loop hands to the tool function. -/
theorem C5_fragment_order :
    (∀ (st : AggState) (es : List StreamEvent) (cid : String),
        argsOf ((es.foldl stepA st).pending) cid
          = argsOf st.pending cid ++ deltasFor cid es)
    ∧ processEvents envId c5turn initAgg vs0
        = ⟨vs0,
           [Effect.toolInvoke "find_account_by_name" (Json.obj [("a", Json.num 1)]),
            Effect.itemCreateOutput "c1" Json.null, Effect.responseCreate,
            Effect.toolInvoke "list_contacts_for_account" (Json.num 4),
            Effect.itemCreateOutput "c2" Json.null, Effect.responseCreate],
           ProcOut.ret (some "tool_called")⟩ :=
  ⟨fun st es cid => argsOf_fold es st cid, rfl⟩

/-- C7: `interact` with a mode that is neither `"text"` nor `"voice"`
raises the invalid-mode `ValueError` with an empty effect trace: nothing
is sent to the model connection and nothing is recorded or triggered. -/
theorem C7_invalid_mode (env : ToolEnv) (mode : String)
    (turns : List (List StreamEvent)) (vs : ValidationState)
    (h1 : mode ≠ "voice") (h2 : mode ≠ "text") :
    interact env mode turns vs = ⟨vs, [], InteractOut.exc ExcKind.valueError⟩ := by
  unfold interact
  rw [if_neg h1, if_neg h2]

/-- C7 witness: `interact("bogus_mode", …)` fails fast with no effects. -/
theorem C7_invalid_mode_w :
    interact envId "bogus_mode" [] vs0 = ⟨vs0, [], InteractOut.exc ExcKind.valueError⟩ :=
  C7_invalid_mode envId "bogus_mode" [] vs0 (by decide) (by decide)

/-- C9: a turn that reaches `response.done` having seen only events that
neither create a tool-call accumulator nor assign `final_text` (audio
deltas, and `arguments.done` events for unseen ids) raises
`UnboundLocalError`: `final_text` is read before any assignment, so no
final utterance — not even an empty one — is returned, and nothing is
played. -/
theorem C9_unbound (env : ToolEnv) (vs : ValidationState) (es : List StreamEvent)
    (h : ∀ e ∈ es, preservesEmpty e = true) :
    processEvents env (es ++ [StreamEvent.responseDone]) initAgg vs
      = ⟨vs, [], ProcOut.exc ExcKind.unboundLocal⟩ := by
  have hnd : ∀ e ∈ es, e ≠ StreamEvent.responseDone := by
    intro e he hcontra
    rw [hcontra] at he
    have := h _ he
    simp [preservesEmpty] at this
  rw [processEvents_append_nd env es _ initAgg vs hnd]
  obtain ⟨hp, hf⟩ := quiet_fold es initAgg rfl rfl h
  unfold processEvents
  simp [hp, hf]

/-- C9 witness: audio only, then turn-complete, raises. -/
theorem C9_unbound_w :
    processEvents envId
        ([StreamEvent.audioDelta "QUJD", StreamEvent.argsDone "c9" "find_account_by_name"]
          ++ [StreamEvent.responseDone]) initAgg vs0
      = ⟨vs0, [], ProcOut.exc ExcKind.unboundLocal⟩ :=
  C9_unbound envId vs0
    [StreamEvent.audioDelta "QUJD", StreamEvent.argsDone "c9" "find_account_by_name"]
    (by intro e he; fin_cases he <;> rfl)

/-- C10: a `function_call_arguments.done` event whose `call_id` has no
accumulator is silently ignored — the aggregator state is completely
unchanged (first conjunct), so the call is never finalized or dispatched:
a tool call with zero argument fragments is dropped without error, and the
turn proceeds to return its transcript as a final utterance with no tool
effects at all (second conjunct). -/
theorem C10_orphan_done :
    (∀ (st : AggState) (cid n : String), (∀ kv ∈ st.pending, kv.1 ≠ cid) →
        stepA st (StreamEvent.argsDone cid n) = st)
    ∧ (∀ t : String,
        processEvents envId
            [StreamEvent.argsDone "c1" "find_account_by_name",
             StreamEvent.transcriptDone t, StreamEvent.responseDone] initAgg vs0
          = ⟨vs0, [], ProcOut.ret (some (pyStrip t))⟩) := by
  constructor
  · intro st cid n h
    show {st with pending := pendingSetName st.pending cid n} = st
    rw [pendingSetName_absent st.pending cid n h]
  · intro t
    rfl

/-- C10 witness: the ignored event at the initial state, and a concrete
transcript round trip. -/
theorem C10_orphan_done_w :
    stepA initAgg (StreamEvent.argsDone "c1" "find_account_by_name") = initAgg
    ∧ processEvents envId
        [StreamEvent.argsDone "c1" "find_account_by_name",
         StreamEvent.transcriptDone " hi ", StreamEvent.responseDone] initAgg vs0
      = ⟨vs0, [], ProcOut.ret (some "hi")⟩ :=
  ⟨C10_orphan_done.1 initAgg "c1" "find_account_by_name" (by intro kv h; simp [initAgg] at h),
   C10_orphan_done.2 " hi "⟩

/-- C8: a non-tool turn whose transcript trims to the literal sentinel
`"tool_called"` is mistaken for a tool batch by `interact`'s loop
condition: the loop triggers another generation and continues with the
following turns (first conjunct) instead of returning that text — with no
further turns, `interact` returns Python `None`, not the transcript
(second conjunct). -/
theorem C8_sentinel (env : ToolEnv) (t : String) (rest : List (List StreamEvent))
    (vs : ValidationState) (ht : pyStrip t = "tool_called") :
    interactLoop env ([StreamEvent.transcriptDone t, StreamEvent.responseDone] :: rest) vs
      = ⟨(interactLoop env rest vs).vs,
         Effect.responseCreate :: (interactLoop env rest vs).trace,
         (interactLoop env rest vs).out⟩
    ∧ (interact env "text" [[StreamEvent.transcriptDone t, StreamEvent.responseDone]] vs).out
        = InteractOut.ret none := by
  have hp : processEvents env [StreamEvent.transcriptDone t, StreamEvent.responseDone]
      initAgg vs = ⟨vs, [], ProcOut.ret (some (pyStrip t))⟩ := rfl
  rw [ht] at hp
  constructor
  · show (let r := processEvents env [StreamEvent.transcriptDone t, StreamEvent.responseDone]
              initAgg vs
          match r.out with
          | ProcOut.ret v =>
            if v = some "tool_called" then
              let r2 := interactLoop env rest r.vs
              (⟨r2.vs, r.trace ++ Effect.responseCreate :: r2.trace, r2.out⟩ : ProcRes)
            else ⟨r.vs, r.trace, ProcOut.ret v⟩
          | ProcOut.exc k => ⟨r.vs, r.trace, ProcOut.exc k⟩)
        = ⟨(interactLoop env rest vs).vs,
           Effect.responseCreate :: (interactLoop env rest vs).trace,
           (interactLoop env rest vs).out⟩
    rw [hp]
    rfl
  · show (ofProc (interactLoop env
        [[StreamEvent.transcriptDone t, StreamEvent.responseDone]] vs).out)
        = InteractOut.ret none
    have h1 : interactLoop env [[StreamEvent.transcriptDone t, StreamEvent.responseDone]] vs
        = ⟨(interactLoop env ([] : List (List StreamEvent)) vs).vs,
           Effect.responseCreate :: (interactLoop env ([] : List (List StreamEvent)) vs).trace,
           (interactLoop env ([] : List (List StreamEvent)) vs).out⟩ := by
      show (let r := processEvents env [StreamEvent.transcriptDone t, StreamEvent.responseDone]
                initAgg vs
            match r.out with
            | ProcOut.ret v =>
              if v = some "tool_called" then
                let r2 := interactLoop env ([] : List (List StreamEvent)) r.vs
                (⟨r2.vs, r.trace ++ Effect.responseCreate :: r2.trace, r2.out⟩ : ProcRes)
              else ⟨r.vs, r.trace, ProcOut.ret v⟩
            | ProcOut.exc k => ⟨r.vs, r.trace, ProcOut.exc k⟩)
          = _
      rw [hp]
      rfl
    rw [h1]
    rfl

/-- C8 witness: the sentinel transcript, with whitespace exercising the
trim, is not returned; generation is re-triggered instead. -/
theorem C8_sentinel_w :
    interactLoop envId [[StreamEvent.transcriptDone " tool_called ",
        StreamEvent.responseDone]] vs0
      = ⟨(interactLoop envId [] vs0).vs,
         Effect.responseCreate :: (interactLoop envId [] vs0).trace,
         (interactLoop envId [] vs0).out⟩
    ∧ (interact envId "text" [[StreamEvent.transcriptDone " tool_called ",
        StreamEvent.responseDone]] vs0).out = InteractOut.ret none :=
  C8_sentinel envId " tool_called " [] vs0 rfl

/-- C6: the endpointer's trailing-silence counter resets to zero on a
speech frame (first conjunct) and increments on a silence frame (second
conjunct, below the limit); the timeout boundary is
`silence_timeout / frame_duration = 1500 ms / 30 ms = 50` frames; and an
audio source yielding 5 speech frames then `n ≥ 50` silence frames is
captured as exactly the 5 speech frames followed by exactly 50 silence
frames — capture stops at, and not beyond, the boundary. -/
theorem C6_endpointer (n : Nat) (hn : silenceLimit ≤ n) :
    silenceLimit = 50
    ∧ (∀ (rest : List Bool) (c : Nat),
        recordLoop (fun b => b) silenceLimit (true :: rest) c
          = (recordLoop (fun b => b) silenceLimit rest 0).map (fun tl => true :: tl))
    ∧ (∀ (rest : List Bool) (c : Nat), c + 1 < silenceLimit →
        recordLoop (fun b => b) silenceLimit (false :: rest) c
          = (recordLoop (fun b => b) silenceLimit rest (c + 1)).map (fun tl => false :: tl))
    ∧ record_until_silence (fun b => b)
        (List.replicate 5 true ++ List.replicate n false)
        = some (List.replicate 5 true ++ List.replicate silenceLimit false) := by
  refine ⟨rfl, fun rest c => rfl, fun rest c hc => ?_, ?_⟩
  · show (if (fun b => b) false = true then _ else _) = _
    rw [if_neg (by simp), if_neg (by omega)]
  · have silence_part : ∀ (m c : Nat), c < silenceLimit → silenceLimit ≤ c + m →
        recordLoop (fun b => b) silenceLimit (List.replicate m false) c
          = some (List.replicate (silenceLimit - c) false) := by
      intro m
      induction m with
      | zero => intro c hc hm; omega
      | succ m ih =>
        intro c hc hm
        rw [List.replicate_succ]
        show (if (false : Bool) = true then _ else _) = _
        rw [if_neg (by simp)]
        by_cases hstop : c + 1 ≥ silenceLimit
        · rw [if_pos hstop]
          have : silenceLimit - c = 1 := by omega
          rw [this, List.replicate_one]
        · rw [if_neg hstop]
          rw [ih (c + 1) (by omega) (by omega)]
          have : silenceLimit - c = (silenceLimit - (c + 1)) + 1 := by omega
          rw [this, List.replicate_succ]
          rfl
    have speech_part : ∀ (k : Nat) (rest : List Bool),
        recordLoop (fun b => b) silenceLimit (List.replicate k true ++ rest) 0
          = (recordLoop (fun b => b) silenceLimit rest 0).map
              (fun tl => List.replicate k true ++ tl) := by
      intro k
      induction k with
      | zero =>
        intro rest
        simp only [List.replicate, List.nil_append]
        cases recordLoop (fun b => b) silenceLimit rest 0 <;> simp
      | succ k ih =>
        intro rest
        rw [List.replicate_succ, List.cons_append]
        show (recordLoop (fun b => b) silenceLimit (List.replicate k true ++ rest) 0).map
              (fun tl => true :: tl) = _
        rw [ih rest]
        cases recordLoop (fun b => b) silenceLimit rest 0 <;> simp
    unfold record_until_silence
    rw [speech_part 5 (List.replicate n false),
        silence_part n 0 (by decide) (by omega)]
    rfl

/-- C6 witness: exactly 50 trailing silence frames are captured. -/
theorem C6_endpointer_w :
    record_until_silence (fun b => b)
        (List.replicate 5 true ++ List.replicate 50 false)
      = some (List.replicate 5 true ++ List.replicate silenceLimit false) :=
  (C6_endpointer 50 (by decide)).2.2.2

/-- C1 (settled against the spec-modelled Salesforce tool layer): an
`upload_visit_report` call dispatched while the two verification flags are
not both set performs no CRM access, leaves the flags unchanged, and its
synthesized `GateViolation` output (`"must validate account/contact
first"`) is fed back as the tool's `function_call_output`; dispatched with
both flags set, it reaches the CRM (record creation) exactly once —
whether or not a `tool_callback` observer is installed. -/
theorem C1_upload_gate (crm : CrmBackend) (cb : Bool) (vs : ValidationState)
    (cid argStr : String) (args : Json) (hp : jsonParse argStr = some args) :
    ((vs.account_verified && vs.contact_verified) = false →
      (handle_tool_calls ⟨specToolImpl crm, cb⟩ vs
          [⟨"upload_visit_report", cid, argStr⟩]).trace
        = Effect.toolInvoke "upload_visit_report" args
            :: ((if cb then [Effect.callbackNotify "upload_visit_report" args gateViolationJson]
                 else [])
                ++ [Effect.itemCreateOutput cid gateViolationJson, Effect.responseCreate])
      ∧ (handle_tool_calls ⟨specToolImpl crm, cb⟩ vs
            [⟨"upload_visit_report", cid, argStr⟩]).trace.countP Effect.isSfOp = 0
      ∧ (handle_tool_calls ⟨specToolImpl crm, cb⟩ vs
            [⟨"upload_visit_report", cid, argStr⟩]).vs = vs)
    ∧ ((vs.account_verified && vs.contact_verified) = true →
        (handle_tool_calls ⟨specToolImpl crm, cb⟩ vs
            [⟨"upload_visit_report", cid, argStr⟩]).trace.countP Effect.isSfOp = 1) := by
  have hmem : ("upload_visit_report" ∈ TOOL_MAP_keys) := by decide
  have hne1 : ¬("upload_visit_report" = "find_account_by_name") := by decide
  have hne2 : ¬("upload_visit_report" = "list_contacts_for_account") := by decide
  constructor
  · intro hfalse
    refine ⟨?_, ?_, ?_⟩ <;>
    · unfold handle_tool_calls handleOneCall
      simp only [hp, hmem, if_true, specToolImpl, if_neg hne1, if_neg hne2, if_pos rfl,
        upload_visit_report_sf, hfalse, Bool.false_eq_true, if_false]
      cases cb <;>
        simp [handle_tool_calls, Effect.isSfOp, List.countP_cons, List.countP_append]
  · intro htrue
    unfold handle_tool_calls handleOneCall
    simp only [hp, hmem, if_true, specToolImpl, if_neg hne1, if_neg hne2, if_pos rfl,
      upload_visit_report_sf, htrue]
    cases hcr : crm.createReport args with
    | ok rec =>
      simp only [hcr]
      cases cb <;>
        simp [handle_tool_calls, Effect.isSfOp, List.countP_cons, List.countP_append]
    | error e =>
      simp only [hcr]
      cases cb <;>
        simp [handle_tool_calls, Effect.isSfOp, List.countP_cons, List.countP_append]

/-- C1 witness: with both flags still `false` (session start) the upload
is short-circuited with the gate-violation output and no CRM access, and
with both flags `true` it reaches the CRM exactly once. -/
theorem C1_upload_gate_w :
    ((handle_tool_calls ⟨specToolImpl crm0, false⟩ vs0
        [⟨"upload_visit_report", "u1", "\x7b\x7d"⟩]).trace
      = [Effect.toolInvoke "upload_visit_report" (Json.obj []),
         Effect.itemCreateOutput "u1" gateViolationJson, Effect.responseCreate]
      ∧ (handle_tool_calls ⟨specToolImpl crm0, false⟩ vs0
          [⟨"upload_visit_report", "u1", "\x7b\x7d"⟩]).trace.countP Effect.isSfOp = 0
      ∧ (handle_tool_calls ⟨specToolImpl crm0, false⟩ vs0
          [⟨"upload_visit_report", "u1", "\x7b\x7d"⟩]).vs = vs0)
    ∧ (handle_tool_calls ⟨specToolImpl crm0, false⟩ ⟨true, true, some "A001"⟩
        [⟨"upload_visit_report", "u1", "\x7b\x7d"⟩]).trace.countP Effect.isSfOp = 1 :=
  ⟨(C1_upload_gate crm0 false vs0 "u1" "\x7b\x7d" (Json.obj []) rfl).1 rfl,
   (C1_upload_gate crm0 false ⟨true, true, some "A001"⟩ "u1" "\x7b\x7d"
      (Json.obj []) rfl).2 rfl⟩

/-- C3 counterexample: the turn producing one `find_account_by_name` call
followed by a non-tool turn causes THREE generation triggers, not two —
the initial `response.create` of `interact`, the per-call
`response.create` inside `handle_tool_calls` (line 127), and the loop
re-trigger of `interact` (line 502) — together with the one CRM call. -/
theorem C3_cex :
    (interact env0 "text" [toolTurn, finalTurn] vs0).trace.countP Effect.isRespCreate = 3
    ∧ (interact env0 "text" [toolTurn, finalTurn] vs0).trace.countP
        Effect.isRespCreate ≠ 2
    ∧ (interact env0 "text" [toolTurn, finalTurn] vs0).trace.countP Effect.isSfOp = 1 :=
  ⟨rfl, by decide, rfl⟩

/-- C3 (amended): generation is re-triggered once per successfully
executed call inside the batch handler — its trigger count over a batch is
the per-call count of the head plus the count over the tail (first
conjunct), with exactly one trigger per successful call (second conjunct)
— plus one more trigger per tool turn from `interact`'s loop; so the
scenario of one `find_account_by_name` call followed by a non-tool turn
causes exactly three generation triggers and one CRM call (third
conjunct). -/
theorem C3_triggers :
    (∀ (env : ToolEnv) (vs : ValidationState) (c : ToolCall) (cs : List ToolCall),
        (handleOneCall env vs c).crashed = false →
        (handle_tool_calls env vs (c :: cs)).trace.countP Effect.isRespCreate
          = (handleOneCall env vs c).trace.countP Effect.isRespCreate
            + (handle_tool_calls env (handleOneCall env vs c).vs cs).trace.countP
                Effect.isRespCreate)
    ∧ (∀ (env : ToolEnv) (vs : ValidationState) (c : ToolCall) (args : Json)
          (vs' : ValidationState) (ops : List CrmOp) (res : Json),
        jsonParse c.arguments = some args →
        c.name ∈ TOOL_MAP_keys →
        env.toolImpl c.name args vs = (vs', ops, Except.ok res) →
        (handleOneCall env vs c).trace.countP Effect.isRespCreate = 1)
    ∧ ((interact env0 "text" [toolTurn, finalTurn] vs0).trace.countP
          Effect.isRespCreate = 3
        ∧ (interact env0 "text" [toolTurn, finalTurn] vs0).trace.countP
            Effect.isSfOp = 1) := by
  refine ⟨?_, ?_, rfl, rfl⟩
  · intro env vs c cs h
    show (let r := handleOneCall env vs c
          if r.crashed then ⟨r.vs, r.trace, true⟩
          else
            let r2 := handle_tool_calls env r.vs cs
            (⟨r2.vs, r.trace ++ r2.trace, r2.crashed⟩ : DispatchRes)).trace.countP
              Effect.isRespCreate = _
    simp [h, List.countP_append]
  · intro env vs c args vs' ops res hp hk he
    unfold handleOneCall
    simp only [hp, hk, if_true, he]
    cases hcb : env.hasCallback <;>
      simp [Effect.isRespCreate, List.countP_cons, List.countP_append, List.countP_map,
        Function.comp]

/-- C3 witness: a single successful call yields exactly one in-handler
generation trigger. -/
theorem C3_triggers_w :
    (handleOneCall envId vs0 upCall).trace.countP Effect.isRespCreate = 1 :=
  C3_triggers.2.1 envId vs0 upCall (Json.obj []) vs0 [] Json.null rfl (by decide) rfl

/-- C4 counterexample: when the CRM collaborator raises during an upload,
the per-call `except` handler only logs and notifies the observer — no
`function_call_output` is created for the call, so the error is NOT fed
back into the conversation; the batch is not aborted and the flags are
unchanged. -/
theorem C4_cex :
    (handle_tool_calls envE ⟨true, true, none⟩
        [⟨"upload_visit_report", "u1", "\x7b\x7d"⟩]).trace
      = [Effect.toolInvoke "upload_visit_report" (Json.obj []),
         Effect.sfOp (.createVisitReport (Json.obj [])),
         Effect.callbackNotify "upload_visit_report" (Json.obj []) (errJson "boom")]
    ∧ (handle_tool_calls envE ⟨true, true, none⟩
        [⟨"upload_visit_report", "u1", "\x7b\x7d"⟩]).trace.countP Effect.isItemOutput = 0
    ∧ (handle_tool_calls envE ⟨true, true, none⟩
        [⟨"upload_visit_report", "u1", "\x7b\x7d"⟩]).crashed = false
    ∧ (handle_tool_calls envE ⟨true, true, none⟩
        [⟨"upload_visit_report", "u1", "\x7b\x7d"⟩]).vs = ⟨true, true, none⟩ :=
  ⟨rfl, rfl, rfl, rfl⟩

/-- C4 (amended): an exception from a tool function is caught per call and
does not abort the batch or the session — the rest of the batch is
processed from the returned state, and the observer (when installed) is
notified with the error payload; but the error is only logged and
notified: no `function_call_output` is created and no generation is
triggered for that call, so it is NOT fed back into the conversation
(first conjunct: the complete per-call effect trace).  The verification
flags are left untouched by a raising upload (second conjunct). -/
theorem C4_per_call :
    (∀ (env : ToolEnv) (vs : ValidationState) (c : ToolCall) (cs : List ToolCall)
        (args : Json) (vs' : ValidationState) (ops : List CrmOp) (e : String),
      jsonParse c.arguments = some args →
      c.name ∈ TOOL_MAP_keys →
      env.toolImpl c.name args vs = (vs', ops, Except.error e) →
      env.hasCallback = true →
      handle_tool_calls env vs (c :: cs)
        = ⟨(handle_tool_calls env vs' cs).vs,
           Effect.toolInvoke c.name args :: (ops.map Effect.sfOp
             ++ [Effect.callbackNotify c.name args (errJson e)]
             ++ (handle_tool_calls env vs' cs).trace),
           (handle_tool_calls env vs' cs).crashed⟩)
    ∧ (∀ (crm : CrmBackend) (uargs : Json) (vsu : ValidationState) (msg : String),
        crm.createReport uargs = Except.error msg →
        (specToolImpl crm "upload_visit_report" uargs vsu).1 = vsu) := by
  constructor
  · intro env vs c cs args vs' ops e hp hk he hcb
    show (let r := handleOneCall env vs c
          if r.crashed then ⟨r.vs, r.trace, true⟩
          else
            let r2 := handle_tool_calls env r.vs cs
            (⟨r2.vs, r.trace ++ r2.trace, r2.crashed⟩ : DispatchRes)) = _
    have h1 : handleOneCall env vs c
        = ⟨vs', Effect.toolInvoke c.name args :: (ops.map Effect.sfOp
            ++ [Effect.callbackNotify c.name args (errJson e)]), false⟩ := by
      unfold handleOneCall
      simp only [hp, hk, if_true, he, hcb]
      simp
    rw [h1]
    simp
  · intro crm uargs vsu msg hcr
    have hne1 : ¬("upload_visit_report" = "find_account_by_name") := by decide
    have hne2 : ¬("upload_visit_report" = "list_contacts_for_account") := by decide
    unfold specToolImpl
    rw [if_neg hne1, if_neg hne2, if_pos rfl]
    unfold upload_visit_report_sf
    by_cases hv : (vsu.account_verified && vsu.contact_verified) = true
    · rw [if_pos hv, hcr]
    · rw [if_neg hv]

/-- C4 witness: the amended per-call behaviour at a concrete raising
upload with an observer installed, followed by a second call showing the
batch continues. -/
theorem C4_per_call_w :
    handle_tool_calls envE ⟨true, true, none⟩
        [⟨"upload_visit_report", "u1", "\x7b\x7d"⟩,
         ⟨"find_account_by_name", "u2", "\x7b\x7d"⟩]
      = ⟨(handle_tool_calls envE ⟨true, true, none⟩
            [⟨"find_account_by_name", "u2", "\x7b\x7d"⟩]).vs,
         Effect.toolInvoke "upload_visit_report" (Json.obj [])
           :: ([Effect.sfOp (.createVisitReport (Json.obj []))]
             ++ [Effect.callbackNotify "upload_visit_report" (Json.obj []) (errJson "boom")]
             ++ (handle_tool_calls envE ⟨true, true, none⟩
                  [⟨"find_account_by_name", "u2", "\x7b\x7d"⟩]).trace),
         (handle_tool_calls envE ⟨true, true, none⟩
            [⟨"find_account_by_name", "u2", "\x7b\x7d"⟩]).crashed⟩ :=
  C4_per_call.1 envE ⟨true, true, none⟩ ⟨"upload_visit_report", "u1", "\x7b\x7d"⟩
    [⟨"find_account_by_name", "u2", "\x7b\x7d"⟩] (Json.obj []) ⟨true, true, none⟩
    [.createVisitReport (Json.obj [])] "boom" rfl (by decide) rfl rfl

end VRA
